import Mathlib

/-
Verification development for the Serpens Dev Manager backend
(src/src-tauri/src/main.rs).

The backend is a set of Tauri command handlers that manipulate the
filesystem and invoke the external git executable.  We shallowly embed
them as pure Lean functions:

* the filesystem is a state value (`FS`) mapping component paths to
  directory flags and file contents;
* each external effect whose outcome the code merely observes (git
  invocations, fallible filesystem primitives) is an explicit oracle
  argument describing that outcome, and the handler's behaviour is a
  pure function of the starting state and those oracles;
* fallible handlers return `Except String α` exactly mirroring the
  Rust `Result<T, String>` values, paired with the resulting state.
-/

namespace Serpens

/-- Paths are lists of components, mirroring `PathBuf` built by `join`. -/
abbrev Path := List String

/-- JSON documents, modelling the `serde_json::Value` universe needed by
the settings file. -/
inductive Json where
  | str (s : String)
  | bool (b : Bool)
  | num (n : Int)
  | null
  | arr (elems : List Json)
  | obj (fields : List (String × Json))

/-- Contents of an on-disk file.  Plugin files are opaque byte strings
(`raw`); the settings file written by `serde_json` is represented
structurally by its JSON document (`json`), standing for the serialized
text that `serde_json::to_string_pretty` produces for it. -/
inductive FileData where
  | raw (s : String)
  | json (j : Json)

/-- Filesystem state: which paths are directories, and which paths hold a
file with which content.  `fs::Path::exists` is true of either kind. -/
structure FS where
  isDir : Path → Bool
  fileContent : Path → Option FileData

/-- Existence test mirroring Rust `Path::exists` (true for a directory or
a file). -/
def FS.pathExists (fs : FS) (p : Path) : Bool :=
  fs.isDir p || (fs.fileContent p).isSome

/-! ### Relative-path helper -/

/-- Relative position of `p` below `base`: `some rel` when `p = base ++ rel`,
`none` when `p` is not inside the subtree rooted at `base`. -/
def relFrom (base p : Path) : Option Path :=
  if base.isPrefixOf p then some (p.drop base.length) else none

/-! ### Filesystem primitives

Denotations of the `std::fs` calls the backend uses.  The `Part`
variants describe the state after a failed call: real recursive
removal/copy/creation that aborts part-way has deleted/written only some
of the entries it would have processed, always confined to the target
subtree; which entries were processed is chosen by the oracle predicate. -/

/-- Effect of a successful `fs::remove_dir_all(t)`: everything at or below
`t` is gone. -/
def removeDirAll (fs : FS) (t : Path) : FS where
  isDir p := if t.isPrefixOf p then false else fs.isDir p
  fileContent p := if t.isPrefixOf p then none else fs.fileContent p

/-- State after a failed `fs::remove_dir_all(t)`: an oracle-chosen part of
the subtree at `t` (the entries processed before the error) is gone. -/
def removeDirAllPart (fs : FS) (t : Path) (gone : Path → Bool) : FS where
  isDir p := if t.isPrefixOf p && gone p then false else fs.isDir p
  fileContent p := if t.isPrefixOf p && gone p then none else fs.fileContent p

/-- Effect of a successful `fs::create_dir_all(t)`: `t` and all its
ancestors become directories. -/
def createDirAll (fs : FS) (t : Path) : FS where
  isDir p := if p.isPrefixOf t then true else fs.isDir p
  fileContent p := fs.fileContent p

/-- State after a failed `fs::create_dir_all(t)`: an oracle-chosen part of
the ancestor chain of `t` was created before the error. -/
def createDirAllPart (fs : FS) (t : Path) (made : Path → Bool) : FS where
  isDir p := if p.isPrefixOf t && made p then true else fs.isDir p
  fileContent p := fs.fileContent p

/-- Effect of a successful `copy_dir_all(&src, &dst)` (main.rs:188-200):
`fs::create_dir_all(dst)` makes `dst` and its ancestors directories, then
every directory below `src` is created below `dst` and every file below
`src` is copied to the corresponding path below `dst`, overwriting files
already there; entries below `dst` with no counterpart below `src` are
kept.  The denotation matches the recursive walk for the disjoint
`src`/`dst` pairs at which the program calls it. -/
def copy_dir_all (fs : FS) (src dst : Path) : FS where
  isDir p :=
    if p.isPrefixOf dst then true
    else
      match relFrom dst p with
      | some rel => fs.isDir (src ++ rel) || fs.isDir p
      | none => fs.isDir p
  fileContent p :=
    match relFrom dst p with
    | some rel =>
      match fs.fileContent (src ++ rel) with
      | some c => some c
      | none => fs.fileContent p
    | none => fs.fileContent p

/-- State after a failed `copy_dir_all(&src, &dst)`: only the
oracle-chosen entries (those processed before the error) were written
below `dst`. -/
def copyDirAllPart (fs : FS) (src dst : Path) (done : Path → Bool) : FS where
  isDir p :=
    if p.isPrefixOf dst && done [] then true
    else
      match relFrom dst p with
      | some rel => (done rel && fs.isDir (src ++ rel)) || fs.isDir p
      | none => fs.isDir p
  fileContent p :=
    match relFrom dst p with
    | some rel =>
      if done rel then
        match fs.fileContent (src ++ rel) with
        | some c => some c
        | none => fs.fileContent p
      else fs.fileContent p
    | none => fs.fileContent p

/-- A set of directory/file writes below some root, used to describe what
an external git process (clone, pull) leaves inside the work tree. -/
structure TreeWrite where
  wDir : Path → Bool
  wFile : Path → Option FileData

/-- Apply an external write set below `dst`: every path the writer marks
as a directory becomes one, every file it writes gets its content;
everything else is untouched. -/
def applyTreeWrite (fs : FS) (dst : Path) (w : TreeWrite) : FS where
  isDir p :=
    match relFrom dst p with
    | some rel => w.wDir rel || fs.isDir p
    | none => fs.isDir p
  fileContent p :=
    match relFrom dst p with
    | some rel =>
      match w.wFile rel with
      | some d => some d
      | none => fs.fileContent p
    | none => fs.fileContent p

/-- Effect of a successful `fs::write(p, content)`. -/
def writeFile (fs : FS) (p : Path) (d : FileData) : FS where
  isDir := fs.isDir
  fileContent q := if q = p then some d else fs.fileContent q

/-! ### Path layout (main.rs:45-53, 162-171, 349-352)

Every handler reads the `APPDATA` environment variable; we pass its value
as an `Option String` argument (`none` models a failed lookup). -/

/-- Blender addons directory for a given version:
`%APPDATA%/Blender Foundation/Blender/<version>/scripts/addons`. -/
def addonsPath (a v : String) : Path :=
  [a, "Blender Foundation", "Blender", v, "scripts", "addons"]

/-- Installed plugin directory `<addons>/scripting_nodes`. -/
def addonPath (a v : String) : Path := addonsPath a v ++ ["scripting_nodes"]

/-- Fixed backup directory `<addons>/_serpens_original_backup`. -/
def backupPath (a v : String) : Path := addonsPath a v ++ ["_serpens_original_backup"]

/-- Settings directory `%APPDATA%/SerpensDevManager`. -/
def settingsDirPath (a : String) : Path := [a, "SerpensDevManager"]

/-- Settings file `%APPDATA%/SerpensDevManager/settings.json`. -/
def settingsFilePath (a : String) : Path := settingsDirPath a ++ ["settings.json"]

/-- Rendering of a `PathBuf` by `to_string_lossy` on Windows, joining
components with a backslash. -/
def pathString (p : Path) : String := String.intercalate "\x5c" p

/-! ### Oracles for external outcomes -/

/-- Captured output of a git child process that did start
(`std::process::Output`). -/
structure GitRun where
  success : Bool
  stdout : String
  stderr : String

/-- Outcome of `Command::new("git")...output()`: either the spawn itself
failed with an error message, or the process ran and produced output. -/
inductive GitOutcome where
  | launchErr (msg : String)
  | ran (r : GitRun)

/-- Whether a git invocation failed to produce a successful exit. -/
def gitFailed : GitOutcome → Bool
  | GitOutcome.launchErr _ => true
  | GitOutcome.ran r => !r.success

/-- Outcome of a `fs::remove_dir_all` call. -/
structure RemoveOutcome where
  ok : Bool
  err : String
  gone : Path → Bool

/-- Outcome of a `copy_dir_all` call. -/
structure CopyOutcome where
  ok : Bool
  err : String
  done : Path → Bool

/-- Outcome of a `fs::create_dir_all` call. -/
structure CreateOutcome where
  ok : Bool
  err : String
  made : Path → Bool

/-- Outcome of a `fs::write` call. -/
structure WriteOutcome where
  ok : Bool
  err : String

/-- Outcome of a `fs::read_to_string` call. -/
structure ReadOutcome where
  ok : Bool
  err : String

/-- Outcome of the `git clone` invocation in `switch_branch`: spawn
failure, or a run with exit status, captured streams, and the work tree
the process left behind. -/
structure CloneOutcome where
  launch : Option String
  success : Bool
  stdout : String
  stderr : String
  tree : TreeWrite

/-- Outcome of the `git pull` invocation in `pull_latest`. -/
structure PullOutcome where
  launch : Option String
  success : Bool
  stderr : String
  tree : TreeWrite

/-- Outcome of spawning the `explorer` process in `open_folder`. -/
structure SpawnOutcome where
  ok : Bool
  err : String

/-! ### Data returned to the frontend (main.rs:16-40) -/

/-- Mirror of the Rust `InstallStatus` struct. -/
structure InstallStatus where
  installed : Bool
  path : String
  branch : Option String
  last_updated : Option String
  deriving DecidableEq

/-- Mirror of the Rust `Branch` struct. -/
structure Branch where
  name : String
  last_commit : Option String
  deriving DecidableEq

/-- Mirror of the Rust `Settings` struct. -/
structure Settings where
  blender_version : String
  custom_path : String
  auto_backup : Bool
  deriving DecidableEq

/-! ### check_installation (main.rs:42-107) -/

/-- Whitespace test used by `str::trim` (space, tab, newline, carriage
return cover the outputs involved here). -/
def isWS (c : Char) : Bool := c = ' ' || c = '\t' || c = '\n' || c = '\r'

/-- Rust `str::trim`: remove leading and trailing whitespace. -/
def rustTrim (s : String) : String :=
  String.mk (((s.toList.dropWhile isWS).reverse.dropWhile isWS).reverse)

/-- Branch or last-updated field produced from one auxiliary git query:
set only when the process started and exited successfully, in which case
it is the trimmed stdout; failures leave the field unset. -/
def gitField (g : GitOutcome) : Option String :=
  match g with
  | GitOutcome.launchErr _ => none
  | GitOutcome.ran r => if r.success then some (rustTrim r.stdout) else none

/-- Embedding of `check_installation`.  `g1` is the outcome of
`git rev-parse --abbrev-ref HEAD`, `g2` of
`git log -1 --format=%cd --date=relative`; both are consulted only when
the addon directory and its `.git` subdirectory exist.  The handler does
not modify the filesystem. -/
def check_installation (appdata : Option String) (v : String) (fs : FS)
    (g1 g2 : GitOutcome) : Except String InstallStatus :=
  match appdata with
  | none => Except.error "APPDATA not found"
  | some a =>
    let addons := addonsPath a v
    let addon := addonPath a v
    let installed := fs.pathExists addon
    if installed then
      if fs.pathExists (addon ++ [".git"]) then
        Except.ok
          { installed := installed, path := pathString addons,
            branch := gitField g1, last_updated := gitField g2 }
      else
        Except.ok
          { installed := installed, path := pathString addons,
            branch := none, last_updated := none }
    else
      Except.ok
        { installed := false, path := pathString addons,
          branch := none, last_updated := none }

/-! ### fetch_branches (main.rs:109-158) -/

/-- Split a character list at every occurrence of the separator `c`,
keeping empty segments, as `str::split` does for a one-character
pattern. -/
def splitOnChar (c : Char) : List Char → List (List Char)
  | [] => [[]]
  | x :: xs =>
    let r := splitOnChar c xs
    if x = c then [] :: r
    else
      match r with
      | [] => [[x]]
      | h :: t => (x :: h) :: t

/-- Strip one trailing carriage return, as `str::lines` does on
`\r\n`-terminated lines. -/
def dropCR (l : List Char) : List Char :=
  match l.reverse with
  | c :: rest => if c = '\r' then rest.reverse else l
  | [] => l

/-- Rust `str::lines`: split at newline characters, drop the final empty
segment produced by a trailing newline, and strip a trailing carriage
return from each line. -/
def rustLines (s : String) : List String :=
  let parts := splitOnChar '\n' s.toList
  let parts :=
    match parts.reverse with
    | [] :: rest => rest.reverse
    | _ => parts
  parts.map (fun l => String.mk (dropCR l))

/-- Remove a literal character-list pattern from the front of a list,
returning `none` when it is not there (`str::strip_prefix`). -/
def dropPat : List Char → List Char → Option (List Char)
  | [], l => some l
  | _ :: _, [] => none
  | p :: ps, x :: xs => if x = p then dropPat ps xs else none

/-- Rust `line.strip_prefix("refs/heads/").unwrap_or(line)`: remove the
ref namespace when present. -/
def dropHeads (s : String) : String :=
  match dropPat "refs/heads/".toList s.toList with
  | some rest => String.mk rest
  | none => s

/-- Parser applied to the stdout of `git ls-remote --heads`: each line of
the form `sha\tref` yields one branch named by the ref without its
`refs/heads/` namespace; other lines are skipped. -/
def parseBranches (stdout : String) : List Branch :=
  (rustLines stdout).filterMap (fun line =>
    match splitOnChar '\t' line.toList with
    | [_, r] => some { name := dropHeads (String.mk r), last_commit := none }
    | _ => none)

/-- Embedding of `fetch_branches`.  `g` is the outcome of
`git ls-remote --heads <repo url>`.  The `tokio::task::spawn_blocking`
offload is modelled as the identity: the task is awaited and its value
returned unchanged (a join failure only occurs on panic). -/
def fetch_branches (g : GitOutcome) : Except String (List Branch) :=
  match g with
  | GitOutcome.launchErr e => Except.error ("Failed to run git: " ++ e)
  | GitOutcome.ran r =>
    if !r.success then Except.error ("Git error: " ++ rustTrim r.stderr)
    else
      let branches := parseBranches r.stdout
      if branches.isEmpty then Except.error "No branches found"
      else Except.ok branches

/-! ### backup_installation (main.rs:160-186) -/

/-- Embedding of `backup_installation`.  `ocp` is the outcome of the
`copy_dir_all(&addon_path, &backup_dest)` call. -/
def backup_installation (appdata : Option String) (v : String) (fs : FS)
    (ocp : CopyOutcome) : Except String String × FS :=
  match appdata with
  | none => (Except.error "APPDATA not found", fs)
  | some a =>
    let addon := addonPath a v
    let backup := backupPath a v
    if fs.pathExists addon then
      if fs.pathExists backup then
        (Except.ok ("Backup already exists: " ++ pathString backup), fs)
      else if ocp.ok then
        (Except.ok (pathString backup), copy_dir_all fs addon backup)
      else
        (Except.error ("Failed to copy: " ++ ocp.err),
         copyDirAllPart fs addon backup ocp.done)
    else
      (Except.error "No installation found to backup", fs)

/-! ### restore_backup (main.rs:202-228) -/

/-- Embedding of `restore_backup`.  `orm` is the outcome of
`fs::remove_dir_all(&addon_path)` (attempted only when the addon
directory exists), `ocp` the outcome of
`copy_dir_all(&backup_path, &addon_path)`. -/
def restore_backup (appdata : Option String) (v : String) (fs : FS)
    (orm : RemoveOutcome) (ocp : CopyOutcome) : Except String Bool × FS :=
  match appdata with
  | none => (Except.error "APPDATA not found", fs)
  | some a =>
    let addon := addonPath a v
    let backup := backupPath a v
    if fs.pathExists backup then
      if fs.pathExists addon then
        if orm.ok then
          let fs1 := removeDirAll fs addon
          if ocp.ok then (Except.ok true, copy_dir_all fs1 backup addon)
          else
            (Except.error ("Failed to restore: " ++ ocp.err),
             copyDirAllPart fs1 backup addon ocp.done)
        else
          (Except.error ("Failed to remove current: " ++ orm.err),
           removeDirAllPart fs addon orm.gone)
      else
        if ocp.ok then (Except.ok true, copy_dir_all fs backup addon)
        else
          (Except.error ("Failed to restore: " ++ ocp.err),
           copyDirAllPart fs backup addon ocp.done)
    else
      (Except.error "No backup found. Click \x27Backup Your Serpens\x27 first!", fs)

/-! ### switch_branch (main.rs:230-297) -/

/-- Clone phase of `switch_branch` (main.rs:251-296), entered after the
addons directory exists and any previous installation was removed:
run `git clone --branch <b> --single-branch --depth 1 <repo> <addon>`;
a spawn failure aborts with no write; otherwise the work tree the
process left is applied at the addon path, a non-success exit fails with
both captured streams, and a successful exit is additionally validated
by requiring `__init__.py` inside the clone — when it is absent the
handler fails with the captured streams and performs no cleanup. -/
def switchClone (branch_name : String) (addon : Path) (fs : FS)
    (ocl : CloneOutcome) : Except String Bool × FS :=
  match ocl.launch with
  | some e => (Except.error ("Failed to run git: " ++ e), fs)
  | none =>
    let fs2 := applyTreeWrite fs addon ocl.tree
    if ocl.success then
      if fs2.pathExists (addon ++ ["__init__.py"]) then (Except.ok true, fs2)
      else
        (Except.error
          ("Clone completed but __init__.py not found. The branch \x27" ++
            branch_name ++ "\x27 may not contain the addon.\nPath: " ++
            pathString addon ++ "\nGit output:\n" ++ ocl.stdout ++ ocl.stderr),
         fs2)
    else
      (Except.error ("Git clone failed:\n" ++ ocl.stdout ++ "\n" ++ ocl.stderr), fs2)

/-- Embedding of `switch_branch`.  `ocr` is the outcome of
`fs::create_dir_all(&addons_path)`, `orm` of the conditional
`fs::remove_dir_all(&addon_path)`, and `ocl` of the clone. -/
def switch_branch (appdata : Option String) (branch_name v : String) (fs : FS)
    (ocr : CreateOutcome) (orm : RemoveOutcome) (ocl : CloneOutcome) :
    Except String Bool × FS :=
  match appdata with
  | none => (Except.error "APPDATA not found", fs)
  | some a =>
    let addons := addonsPath a v
    let addon := addonPath a v
    if ocr.ok then
      let fs1 := createDirAll fs addons
      if fs1.pathExists addon then
        if orm.ok then switchClone branch_name addon (removeDirAll fs1 addon) ocl
        else
          (Except.error ("Failed to remove existing: " ++ orm.err),
           removeDirAllPart fs1 addon orm.gone)
      else switchClone branch_name addon fs1 ocl
    else
      (Except.error ("Failed to create addons dir: " ++ ocr.err),
       createDirAllPart fs addons ocr.made)

/-- State of the filesystem after the clone process of `switch_branch`
has run (addons directory created, any previous installation removed,
work tree of the clone applied at the addon path), before the exit
status and marker validation are examined. -/
def switchCloneState (a v : String) (fs : FS) (w : TreeWrite) : FS :=
  applyTreeWrite
    (if (createDirAll fs (addonsPath a v)).pathExists (addonPath a v) = true
     then removeDirAll (createDirAll fs (addonsPath a v)) (addonPath a v)
     else createDirAll fs (addonsPath a v))
    (addonPath a v) w

/-- Clone outcome used in concrete instantiations: the process starts
and exits successfully but its work tree holds only the bare cloned
directory, without the plugin marker file. -/
def cloneNoInit : CloneOutcome :=
  { launch := none, success := true, stdout := "out", stderr := "err",
    tree := { wDir := fun rel => rel.isEmpty, wFile := fun _ => none } }

/-! ### pull_latest (main.rs:299-325) -/

/-- Embedding of `pull_latest`.  `opl` is the outcome of `git pull` run
inside the addon directory; the work tree changes the process made are
applied there whether or not the pull exited successfully. -/
def pull_latest (appdata : Option String) (v : String) (fs : FS)
    (opl : PullOutcome) : Except String Bool × FS :=
  match appdata with
  | none => (Except.error "APPDATA not found", fs)
  | some a =>
    let addon := addonPath a v
    if fs.pathExists addon then
      match opl.launch with
      | some e => (Except.error ("Failed to run git: " ++ e), fs)
      | none =>
        let fs2 := applyTreeWrite fs addon opl.tree
        if opl.success then (Except.ok true, fs2)
        else (Except.error opl.stderr, fs2)
    else (Except.error "No installation found", fs)

/-! ### open_folder (main.rs:327-345) -/

/-- Embedding of `open_folder`: `fs::create_dir_all(&addons_path)` with
its result discarded (`.ok()`), then spawn `explorer`. -/
def open_folder (appdata : Option String) (v : String) (fs : FS)
    (ocr : CreateOutcome) (osp : SpawnOutcome) : Except String Bool × FS :=
  match appdata with
  | none => (Except.error "APPDATA not found", fs)
  | some a =>
    let addons := addonsPath a v
    let fs1 :=
      if ocr.ok then createDirAll fs addons
      else createDirAllPart fs addons ocr.made
    if osp.ok then (Except.ok true, fs1)
    else (Except.error ("Failed to open explorer: " ++ osp.err), fs1)

/-! ### Settings persistence (main.rs:347-381)

Serialization via `serde_json` is modelled at the level of the JSON
document: `settingsToJson` is the document `to_string_pretty` writes for
a `Settings` value (with the serde rename attributes), and
`settingsFromJson` is the typed deserialization serde performs when
reading it back.  The on-disk file stores the document. -/

/-- First match lookup of a key in a JSON object. -/
def lookupField : List (String × Json) → String → Option Json
  | [], _ => none
  | (k, val) :: rest, key => if k = key then some val else lookupField rest key

/-- Document `serde_json` writes for a `Settings` value, using the
renamed field names `blenderVersion`, `customPath`, `autoBackup`. -/
def settingsToJson (s : Settings) : Json :=
  Json.obj
    [("blenderVersion", Json.str s.blender_version),
     ("customPath", Json.str s.custom_path),
     ("autoBackup", Json.bool s.auto_backup)]

/-- Typed deserialization of a `Settings` value from a JSON document:
requires an object carrying all three renamed fields at their declared
types. -/
def settingsFromJson (j : Json) : Option Settings :=
  match j with
  | Json.obj fields =>
    match lookupField fields "blenderVersion", lookupField fields "customPath",
        lookupField fields "autoBackup" with
    | some (Json.str bv), some (Json.str cp), some (Json.bool ab) =>
      some { blender_version := bv, custom_path := cp, auto_backup := ab }
    | _, _, _ => none
  | _ => none

/-- Embedding of `load_settings`.  `ord` is the outcome of
`fs::read_to_string`; a missing file yields the literal defaults. -/
def load_settings (appdata : Option String) (fs : FS)
    (ord : ReadOutcome) : Except String Settings :=
  match appdata with
  | none => Except.error "APPDATA not found"
  | some a =>
    let sp := settingsFilePath a
    if fs.pathExists sp then
      if ord.ok then
        match fs.fileContent sp with
        | some (FileData.json j) =>
          match settingsFromJson j with
          | some s => Except.ok s
          | none => Except.error "Failed to parse settings: invalid settings document"
        | some (FileData.raw _) =>
          Except.error "Failed to parse settings: invalid settings document"
        | none => Except.error "Failed to read settings: not a file"
      else Except.error ("Failed to read settings: " ++ ord.err)
    else
      Except.ok { blender_version := "5.0", custom_path := "", auto_backup := true }

/-- Embedding of `save_settings`.  `ocr` is the outcome of
`fs::create_dir_all(&settings_dir)`, `owr` of `fs::write`; serialization
of this struct by `serde_json::to_string_pretty` cannot fail and is
modelled as total. -/
def save_settings (appdata : Option String) (fs : FS) (s : Settings)
    (ocr : CreateOutcome) (owr : WriteOutcome) : Except String Bool × FS :=
  match appdata with
  | none => (Except.error "APPDATA not found", fs)
  | some a =>
    let sdir := settingsDirPath a
    let sp := settingsFilePath a
    if ocr.ok then
      let fs1 := createDirAll fs sdir
      if owr.ok then
        (Except.ok true, writeFile fs1 sp (FileData.json (settingsToJson s)))
      else (Except.error ("Failed to write settings: " ++ owr.err), fs1)
    else
      (Except.error ("Failed to create settings dir: " ++ ocr.err),
       createDirAllPart fs sdir ocr.made)

/-! ### Example filesystems for concrete instantiations -/

/-- Empty filesystem. -/
def fsEmpty : FS where
  isDir _ := false
  fileContent _ := none

/-- Filesystem holding an installed plugin and a backup of it (for
appdata root `A`, version `5.0`). -/
def fsBoth : FS where
  isDir p :=
    p.isPrefixOf (addonPath "A" "5.0") || p.isPrefixOf (backupPath "A" "5.0")
  fileContent p :=
    if p = addonPath "A" "5.0" ++ ["f.py"] then some (FileData.raw "cur")
    else if p = backupPath "A" "5.0" ++ ["f.py"] then some (FileData.raw "orig")
    else none

/-- Filesystem holding only the installed plugin (for appdata root `A`,
version `5.0`). -/
def fsAddonOnly : FS where
  isDir p := p.isPrefixOf (addonPath "A" "5.0")
  fileContent p :=
    if p = addonPath "A" "5.0" ++ ["f.py"] then some (FileData.raw "cur") else none

/-- Fully successful remove outcome. -/
def okRemove : RemoveOutcome := { ok := true, err := "", gone := fun _ => false }

/-- Fully successful copy outcome. -/
def okCopy : CopyOutcome := { ok := true, err := "", done := fun _ => false }

/-- Fully successful create outcome. -/
def okCreate : CreateOutcome := { ok := true, err := "", made := fun _ => false }

/-- Successful pull outcome that changes nothing in the work tree. -/
def okPull : PullOutcome :=
  { launch := none, success := true, stderr := "",
    tree := { wDir := fun _ => false, wFile := fun _ => none } }

/-- Successful write outcome. -/
def okWrite : WriteOutcome := { ok := true, err := "" }

/-- Successful spawn outcome. -/
def okSpawn : SpawnOutcome := { ok := true, err := "" }

/-- Agreement of two filesystem states on the whole backup subtree of a
given appdata root and version. -/
def agreesOnBackup (a v : String) (fs fsp : FS) : Prop :=
  ∀ p, (backupPath a v).isPrefixOf p = true →
    fsp.isDir p = fs.isDir p ∧ fsp.fileContent p = fs.fileContent p

/-! ## Lemmas -/

/-! ### Boolean-prefix helper lemmas -/

theorem isPre_append_self (l r : Path) : l.isPrefixOf (l ++ r) = true := by
  have h : l <+: l ++ r := List.prefix_append l r
  simp [h]

theorem isPre_refl (l : Path) : l.isPrefixOf l = true := by
  have h := isPre_append_self l []
  simp at h
  simp [h]

theorem isPre_ne_head (A : Path) (x y : String) (r s : Path) (hxy : x ≠ y) :
    (A ++ x :: r).isPrefixOf (A ++ y :: s) = false := by
  induction A with
  | nil =>
    simp only [List.nil_append]
    apply Bool.eq_false_iff.mpr
    intro h
    rcases List.isPrefixOf_iff_prefix.mp h with ⟨t, ht⟩
    exact hxy (List.cons.injEq .. ▸ ht).1
  | cons a A ih =>
    simp only [List.cons_append, List.isPrefixOf, beq_self_eq_true, Bool.true_and]
    exact ih

theorem isPre_overrun (A : Path) (x : String) (r : Path) :
    (A ++ x :: r).isPrefixOf A = false := by
  apply Bool.eq_false_iff.mpr
  intro h
  have hp := List.isPrefixOf_iff_prefix.mp h
  have hlen := hp.length_le
  simp [List.length_append] at hlen

theorem isPre_trans {a b c : Path} (h1 : a.isPrefixOf b = true)
    (h2 : b.isPrefixOf c = true) : a.isPrefixOf c = true := by
  have p1 := List.isPrefixOf_iff_prefix.mp h1
  have p2 := List.isPrefixOf_iff_prefix.mp h2
  exact List.isPrefixOf_iff_prefix.mpr (p1.trans p2)

theorem isPre_dest {l p : Path} (h : l.isPrefixOf p = true) :
    ∃ r, p = l ++ r := by
  rcases List.isPrefixOf_iff_prefix.mp h with ⟨r, hr⟩
  exact ⟨r, hr.symm⟩

/-- A proper boolean prefix of `A ++ [x]` is a prefix of `A`. -/
theorem isPre_proper_of_snoc {p A : Path} {x : String}
    (h1 : p.isPrefixOf (A ++ [x]) = true)
    (h2 : (A ++ [x]).isPrefixOf p = false) : p.isPrefixOf A = true := by
  have hp := List.isPrefixOf_iff_prefix.mp h1
  rcases List.prefix_concat_iff.mp hp with heq | hpre
  · subst heq
    rw [isPre_refl] at h2
    cases h2
  · exact List.isPrefixOf_iff_prefix.mpr hpre

theorem relFrom_append (base rel : Path) : relFrom base (base ++ rel) = some rel := by
  simp [relFrom, isPre_append_self, List.drop_left]

theorem relFrom_none {base p : Path} (h : base.isPrefixOf p = false) :
    relFrom base p = none := by
  simp [relFrom, h]

/-! ### Disjointness of the path constants -/

/-- Paths inside the subtree of one sibling `A ++ [x]` are unrelated to
the other sibling `A ++ [y]` and lie strictly below `A`. -/
theorem sibling_dj (A : Path) (x y : String) (hxy : x ≠ y) {p : Path}
    (h : (A ++ [x]).isPrefixOf p = true) :
    (A ++ [y]).isPrefixOf p = false ∧ p.isPrefixOf (A ++ [y]) = false ∧
    p.isPrefixOf A = false := by
  obtain ⟨rel, rfl⟩ := isPre_dest h
  rw [List.append_assoc]
  refine ⟨?_, ?_, ?_⟩
  · exact isPre_ne_head A y x [] rel (Ne.symm hxy)
  · exact isPre_ne_head A x y rel [] hxy
  · exact isPre_overrun A x rel

/-- Paths inside the backup subtree are unrelated to the addon directory,
the addons root, and the settings locations. -/
theorem backup_dj (a v : String) {p : Path}
    (h : (backupPath a v).isPrefixOf p = true) :
    (addonPath a v).isPrefixOf p = false ∧
    p.isPrefixOf (addonPath a v) = false ∧
    p.isPrefixOf (addonsPath a v) = false ∧
    p.isPrefixOf (settingsDirPath a) = false ∧
    p ≠ settingsFilePath a := by
  have hsib :=
    sibling_dj (addonsPath a v) "_serpens_original_backup" "scripting_nodes"
      (by decide) h
  obtain ⟨rel, hrel⟩ := isPre_dest h
  refine ⟨hsib.1, hsib.2.1, hsib.2.2, ?_, ?_⟩
  · subst hrel
    exact isPre_ne_head [a] "Blender Foundation" "SerpensDevManager"
      ("Blender" :: v :: "scripts" :: "addons" :: "_serpens_original_backup" :: rel)
      [] (by decide)
  · subst hrel
    intro heq
    have h2 := congrArg (fun l => l.get? 1) heq
    simp only [backupPath, addonsPath, settingsFilePath, settingsDirPath,
      List.cons_append, List.nil_append, List.get?] at h2
    exact absurd h2 (by decide)

/-- Paths inside the addon subtree are unrelated to the backup directory
and lie strictly below the addons root. -/
theorem addon_dj (a v : String) {p : Path}
    (h : (addonPath a v).isPrefixOf p = true) :
    (backupPath a v).isPrefixOf p = false ∧ p.isPrefixOf (backupPath a v) = false ∧
    p.isPrefixOf (addonsPath a v) = false :=
  sibling_dj (addonsPath a v) "scripting_nodes" "_serpens_original_backup"
    (by decide) h

/-! ### Frame lemmas for the filesystem primitives -/

theorem removeDirAll_out (fs : FS) {t p : Path} (h : t.isPrefixOf p = false) :
    (removeDirAll fs t).isDir p = fs.isDir p ∧
    (removeDirAll fs t).fileContent p = fs.fileContent p := by
  simp [removeDirAll, h, -List.isPrefixOf_iff_prefix]

theorem removeDirAllPart_out (fs : FS) (gone : Path → Bool) {t p : Path}
    (h : t.isPrefixOf p = false) :
    (removeDirAllPart fs t gone).isDir p = fs.isDir p ∧
    (removeDirAllPart fs t gone).fileContent p = fs.fileContent p := by
  simp [removeDirAllPart, h, -List.isPrefixOf_iff_prefix]

theorem removeDirAll_in {fs : FS} {t p : Path} (h : t.isPrefixOf p = true) :
    (removeDirAll fs t).isDir p = false ∧
    (removeDirAll fs t).fileContent p = none := by
  simp [removeDirAll, h, -List.isPrefixOf_iff_prefix]

theorem createDirAll_out {fs : FS} {t p : Path} (h : p.isPrefixOf t = false) :
    (createDirAll fs t).isDir p = fs.isDir p := by
  simp [createDirAll, h, -List.isPrefixOf_iff_prefix]

theorem createDirAllPart_out {fs : FS} {t p : Path} {made : Path → Bool}
    (h : p.isPrefixOf t = false) :
    (createDirAllPart fs t made).isDir p = fs.isDir p := by
  simp [createDirAllPart, h, -List.isPrefixOf_iff_prefix]

theorem copy_dir_all_out (fs : FS) (src : Path) {dst p : Path}
    (h1 : dst.isPrefixOf p = false) (h2 : p.isPrefixOf dst = false) :
    (copy_dir_all fs src dst).isDir p = fs.isDir p ∧
    (copy_dir_all fs src dst).fileContent p = fs.fileContent p := by
  simp [copy_dir_all, relFrom_none h1, h2, -List.isPrefixOf_iff_prefix]

theorem copyDirAllPart_out (fs : FS) (src : Path) (done : Path → Bool) {dst p : Path}
    (h1 : dst.isPrefixOf p = false) (h2 : p.isPrefixOf dst = false) :
    (copyDirAllPart fs src dst done).isDir p = fs.isDir p ∧
    (copyDirAllPart fs src dst done).fileContent p = fs.fileContent p := by
  simp [copyDirAllPart, relFrom_none h1, h2, -List.isPrefixOf_iff_prefix]

theorem applyTreeWrite_out (fs : FS) (w : TreeWrite) {dst p : Path}
    (h : dst.isPrefixOf p = false) :
    (applyTreeWrite fs dst w).isDir p = fs.isDir p ∧
    (applyTreeWrite fs dst w).fileContent p = fs.fileContent p := by
  simp [applyTreeWrite, relFrom_none h]

theorem pathExists_congr {fs fsp : FS} {p : Path}
    (h1 : fsp.isDir p = fs.isDir p) (h2 : fsp.fileContent p = fs.fileContent p) :
    fsp.pathExists p = fs.pathExists p := by
  simp [FS.pathExists, h1, h2]

/-- A recursive copy makes its destination a directory. -/
theorem copy_dir_all_dst_dir (fs : FS) (src dst : Path) :
    (copy_dir_all fs src dst).isDir dst = true := by
  simp [copy_dir_all, isPre_refl]

/-- Directory flag strictly below the destination of a recursive copy. -/
theorem copy_dir_all_at_dst_dir (fs : FS) (src dst : Path) (x : String) (rs : Path) :
    (copy_dir_all fs src dst).isDir (dst ++ x :: rs) =
      (fs.isDir (src ++ x :: rs) || fs.isDir (dst ++ x :: rs)) := by
  have hno : (dst ++ x :: rs).isPrefixOf dst = false := isPre_overrun dst x rs
  simp only [copy_dir_all, hno, Bool.false_eq_true, if_false, relFrom_append]

/-- Ancestors of (and) the destination of a recursive copy are
directories afterwards. -/
theorem copy_dir_all_anc_dir (fs : FS) (src dst : Path) {p : Path}
    (h : p.isPrefixOf dst = true) :
    (copy_dir_all fs src dst).isDir p = true := by
  simp only [copy_dir_all, h, if_true]

/-- File contents below the destination of a recursive copy. -/
theorem copy_dir_all_at_dst_file (fs : FS) (src dst rel : Path) :
    (copy_dir_all fs src dst).fileContent (dst ++ rel) =
      (match fs.fileContent (src ++ rel) with
       | some c => some c
       | none => fs.fileContent (dst ++ rel)) := by
  simp only [copy_dir_all, relFrom_append]

/-- Failed git metadata queries yield an unset field. -/
theorem gitField_of_failed {g : GitOutcome} (hg : gitFailed g = true) :
    gitField g = none := by
  cases g with
  | launchErr e => rfl
  | ran r =>
    simp [gitFailed] at hg
    simp [gitField, hg]

/-! ### Restoring the backup into an emptied installation slot -/

/-- Master lemma about `copy_dir_all fs1 backup addon` when `fs1` holds
nothing below the addon path, agrees with `fs` on the backup subtree,
and agrees with `fs` outside the addon subtree: the copied addon subtree
mirrors the backup subtree of `fs`, file contents away from the addon
subtree are untouched, directory flags away from the addon subtree and
its ancestor chain are untouched, and the ancestor chain is all
directories. -/
theorem copy_into_empty (a v : String) (fs fs1 : FS)
    (hbd : fs.isDir (backupPath a v) = true)
    (hag_d : ∀ rel, fs1.isDir (backupPath a v ++ rel) = fs.isDir (backupPath a v ++ rel))
    (hag_f : ∀ rel, fs1.fileContent (backupPath a v ++ rel) =
      fs.fileContent (backupPath a v ++ rel))
    (hemp_d : ∀ rel, fs1.isDir (addonPath a v ++ rel) = false)
    (hemp_f : ∀ rel, fs1.fileContent (addonPath a v ++ rel) = none)
    (hfr_d : ∀ p, (addonPath a v).isPrefixOf p = false → fs1.isDir p = fs.isDir p)
    (hfr_f : ∀ p, (addonPath a v).isPrefixOf p = false →
      fs1.fileContent p = fs.fileContent p) :
    (∀ rel,
      (copy_dir_all fs1 (backupPath a v) (addonPath a v)).isDir (addonPath a v ++ rel) =
        fs.isDir (backupPath a v ++ rel) ∧
      (copy_dir_all fs1 (backupPath a v) (addonPath a v)).fileContent (addonPath a v ++ rel) =
        fs.fileContent (backupPath a v ++ rel)) ∧
    (∀ p, (addonPath a v).isPrefixOf p = false →
      (copy_dir_all fs1 (backupPath a v) (addonPath a v)).fileContent p =
        fs.fileContent p) ∧
    (∀ p, (addonPath a v).isPrefixOf p = false → p.isPrefixOf (addonsPath a v) = false →
      (copy_dir_all fs1 (backupPath a v) (addonPath a v)).isDir p = fs.isDir p) ∧
    (∀ p, p.isPrefixOf (addonsPath a v) = true →
      (copy_dir_all fs1 (backupPath a v) (addonPath a v)).isDir p = true) := by
  refine ⟨?_, ?_, ?_, ?_⟩
  · intro rel
    constructor
    · cases rel with
      | nil =>
        simp only [List.append_nil]
        rw [copy_dir_all_anc_dir fs1 (backupPath a v) (addonPath a v)
          (isPre_refl (addonPath a v))]
        exact hbd.symm
      | cons x rs =>
        rw [copy_dir_all_at_dst_dir, hag_d (x :: rs), hemp_d (x :: rs)]
        simp
    · rw [copy_dir_all_at_dst_file, hag_f rel]
      cases hfc : fs.fileContent (backupPath a v ++ rel) with
      | some c => rfl
      | none => exact hemp_f rel
  · intro p hnp
    simp only [copy_dir_all, relFrom_none hnp]
    exact hfr_f p hnp
  · intro p hnp hna
    have hpa : p.isPrefixOf (addonPath a v) = false := by
      cases hq : p.isPrefixOf (addonPath a v) with
      | false => rfl
      | true =>
        have hq2 : p.isPrefixOf (addonsPath a v) = true :=
          isPre_proper_of_snoc (A := addonsPath a v) (x := "scripting_nodes") hq hnp
        rw [hna] at hq2
        cases hq2
    simp only [copy_dir_all, hpa, Bool.false_eq_true, if_false, relFrom_none hnp]
    exact hfr_d p hnp
  · intro p hpa
    have hp : p.isPrefixOf (addonPath a v) = true :=
      isPre_trans hpa (isPre_append_self (addonsPath a v) ["scripting_nodes"])
    exact copy_dir_all_anc_dir fs1 (backupPath a v) (addonPath a v) hp

/-- Master lemma for a fully successful `restore_backup` over a
well-formed starting state: it returns `Ok(true)`, leaves the addon
subtree mirroring the backup subtree, does not change file contents
outside the addon subtree, does not change directory flags outside the
addon subtree and its ancestor chain, and makes the ancestor chain all
directories. -/
theorem restore_ok_spec (a v : String) (fs : FS) (orm : RemoveOutcome)
    (ocp : CopyOutcome)
    (hb : fs.pathExists (backupPath a v) = true)
    (hbd : fs.isDir (backupPath a v) = true)
    (hclean : fs.pathExists (addonPath a v) = false →
      ∀ rel, rel ≠ [] → fs.isDir (addonPath a v ++ rel) = false ∧
        fs.fileContent (addonPath a v ++ rel) = none)
    (h1 : orm.ok = true) (h2 : ocp.ok = true) :
    (restore_backup (some a) v fs orm ocp).1 = Except.ok true ∧
    (∀ rel,
      (restore_backup (some a) v fs orm ocp).2.isDir (addonPath a v ++ rel) =
        fs.isDir (backupPath a v ++ rel) ∧
      (restore_backup (some a) v fs orm ocp).2.fileContent (addonPath a v ++ rel) =
        fs.fileContent (backupPath a v ++ rel)) ∧
    (∀ p, (addonPath a v).isPrefixOf p = false →
      (restore_backup (some a) v fs orm ocp).2.fileContent p = fs.fileContent p) ∧
    (∀ p, (addonPath a v).isPrefixOf p = false → p.isPrefixOf (addonsPath a v) = false →
      (restore_backup (some a) v fs orm ocp).2.isDir p = fs.isDir p) ∧
    (∀ p, p.isPrefixOf (addonsPath a v) = true →
      (restore_backup (some a) v fs orm ocp).2.isDir p = true) := by
  cases hA : fs.pathExists (addonPath a v) with
  | true =>
    have hres : restore_backup (some a) v fs orm ocp =
        (Except.ok true,
         copy_dir_all (removeDirAll fs (addonPath a v)) (backupPath a v) (addonPath a v)) := by
      simp [restore_backup, hb, hA, h1, h2]
    rw [hres]
    have hmain := copy_into_empty a v fs (removeDirAll fs (addonPath a v)) hbd
      (fun rel => (removeDirAll_out fs (backup_dj a v (isPre_append_self _ rel)).1).1)
      (fun rel => (removeDirAll_out fs (backup_dj a v (isPre_append_self _ rel)).1).2)
      (fun rel => (removeDirAll_in (isPre_append_self _ rel)).1)
      (fun rel => (removeDirAll_in (isPre_append_self _ rel)).2)
      (fun p h => (removeDirAll_out fs h).1)
      (fun p h => (removeDirAll_out fs h).2)
    exact ⟨rfl, hmain.1, hmain.2.1, hmain.2.2.1, hmain.2.2.2⟩
  | false =>
    have hres : restore_backup (some a) v fs orm ocp =
        (Except.ok true, copy_dir_all fs (backupPath a v) (addonPath a v)) := by
      simp [restore_backup, hb, hA, h2]
    rw [hres]
    have hA2 : fs.isDir (addonPath a v) = false ∧
        (fs.fileContent (addonPath a v)).isSome = false := by
      have := hA
      simp [FS.pathExists] at this
      exact ⟨this.1, by simp [this.2]⟩
    have hemp_d : ∀ rel, fs.isDir (addonPath a v ++ rel) = false := by
      intro rel
      cases rel with
      | nil => simpa using hA2.1
      | cons x rs => exact (hclean hA (x :: rs) (by simp)).1
    have hemp_f : ∀ rel, fs.fileContent (addonPath a v ++ rel) = none := by
      intro rel
      cases rel with
      | nil =>
        have := hA2.2
        simp only [List.append_nil]
        cases hx : fs.fileContent (addonPath a v) with
        | none => rfl
        | some d => rw [hx] at this; cases this
      | cons x rs => exact (hclean hA (x :: rs) (by simp)).2
    have hmain := copy_into_empty a v fs fs hbd
      (fun _ => rfl) (fun _ => rfl) hemp_d hemp_f
      (fun _ _ => rfl) (fun _ _ => rfl)
    exact ⟨rfl, hmain.1, hmain.2.1, hmain.2.2.1, hmain.2.2.2⟩

/-! ### Preservation of the backup subtree -/

theorem agrees_refl (a v : String) (fs : FS) : agreesOnBackup a v fs fs :=
  fun _ _ => ⟨rfl, rfl⟩

theorem agrees_remove {a v : String} {fs fs0 : FS}
    (h : agreesOnBackup a v fs fs0) :
    agreesOnBackup a v fs (removeDirAll fs0 (addonPath a v)) := by
  intro p hp
  have hdj := backup_dj a v hp
  have ho := removeDirAll_out fs0 hdj.1
  exact ⟨ho.1.trans (h p hp).1, ho.2.trans (h p hp).2⟩

theorem agrees_removePart {a v : String} {fs fs0 : FS} {gone : Path → Bool}
    (h : agreesOnBackup a v fs fs0) :
    agreesOnBackup a v fs (removeDirAllPart fs0 (addonPath a v) gone) := by
  intro p hp
  have hdj := backup_dj a v hp
  have ho := removeDirAllPart_out fs0 gone hdj.1
  exact ⟨ho.1.trans (h p hp).1, ho.2.trans (h p hp).2⟩

theorem agrees_copy {a v : String} {fs fs0 : FS} {src : Path}
    (h : agreesOnBackup a v fs fs0) :
    agreesOnBackup a v fs (copy_dir_all fs0 src (addonPath a v)) := by
  intro p hp
  have hdj := backup_dj a v hp
  have ho := copy_dir_all_out fs0 src hdj.1 hdj.2.1
  exact ⟨ho.1.trans (h p hp).1, ho.2.trans (h p hp).2⟩

theorem agrees_copyPart {a v : String} {fs fs0 : FS} {src : Path} {done : Path → Bool}
    (h : agreesOnBackup a v fs fs0) :
    agreesOnBackup a v fs (copyDirAllPart fs0 src (addonPath a v) done) := by
  intro p hp
  have hdj := backup_dj a v hp
  have ho := copyDirAllPart_out fs0 src done hdj.1 hdj.2.1
  exact ⟨ho.1.trans (h p hp).1, ho.2.trans (h p hp).2⟩

theorem agrees_create {a v : String} {fs fs0 : FS}
    (h : agreesOnBackup a v fs fs0) :
    agreesOnBackup a v fs (createDirAll fs0 (addonsPath a v)) := by
  intro p hp
  have hdj := backup_dj a v hp
  exact ⟨(createDirAll_out hdj.2.2.1).trans (h p hp).1, (h p hp).2⟩

theorem agrees_createPart {a v : String} {fs fs0 : FS} {made : Path → Bool}
    (h : agreesOnBackup a v fs fs0) :
    agreesOnBackup a v fs (createDirAllPart fs0 (addonsPath a v) made) := by
  intro p hp
  have hdj := backup_dj a v hp
  exact ⟨(createDirAllPart_out hdj.2.2.1).trans (h p hp).1, (h p hp).2⟩

theorem agrees_tree {a v : String} {fs fs0 : FS} {w : TreeWrite}
    (h : agreesOnBackup a v fs fs0) :
    agreesOnBackup a v fs (applyTreeWrite fs0 (addonPath a v) w) := by
  intro p hp
  have hdj := backup_dj a v hp
  have ho := applyTreeWrite_out fs0 w hdj.1
  exact ⟨ho.1.trans (h p hp).1, ho.2.trans (h p hp).2⟩

theorem agrees_createS {a v : String} {fs fs0 : FS}
    (h : agreesOnBackup a v fs fs0) :
    agreesOnBackup a v fs (createDirAll fs0 (settingsDirPath a)) := by
  intro p hp
  have hdj := backup_dj a v hp
  exact ⟨(createDirAll_out hdj.2.2.2.1).trans (h p hp).1, (h p hp).2⟩

theorem agrees_createSPart {a v : String} {fs fs0 : FS} {made : Path → Bool}
    (h : agreesOnBackup a v fs fs0) :
    agreesOnBackup a v fs (createDirAllPart fs0 (settingsDirPath a) made) := by
  intro p hp
  have hdj := backup_dj a v hp
  exact ⟨(createDirAllPart_out hdj.2.2.2.1).trans (h p hp).1, (h p hp).2⟩

theorem agrees_writeS {a v : String} {fs fs0 : FS} {d : FileData}
    (h : agreesOnBackup a v fs fs0) :
    agreesOnBackup a v fs (writeFile fs0 (settingsFilePath a) d) := by
  intro p hp
  have hdj := backup_dj a v hp
  refine ⟨(h p hp).1, ?_⟩
  have : (writeFile fs0 (settingsFilePath a) d).fileContent p = fs0.fileContent p := by
    simp [writeFile, hdj.2.2.2.2]
  exact this.trans (h p hp).2

/-! ### Enumerating the states each handler can leave behind -/

theorem switchClone_cases (bn : String) (addon : Path) (fs : FS)
    (ocl : CloneOutcome) :
    (switchClone bn addon fs ocl).2 = fs ∨
    (switchClone bn addon fs ocl).2 = applyTreeWrite fs addon ocl.tree := by
  rw [switchClone]
  cases hL : ocl.launch with
  | some e => exact Or.inl rfl
  | none =>
    right
    dsimp only
    split
    · split <;> rfl
    · rfl

theorem restore_backup_cases (a v : String) (fs : FS) (orm : RemoveOutcome)
    (ocp : CopyOutcome) :
    (restore_backup (some a) v fs orm ocp).2 = fs ∨
    (restore_backup (some a) v fs orm ocp).2 =
      removeDirAllPart fs (addonPath a v) orm.gone ∨
    (restore_backup (some a) v fs orm ocp).2 =
      copy_dir_all (removeDirAll fs (addonPath a v)) (backupPath a v) (addonPath a v) ∨
    (restore_backup (some a) v fs orm ocp).2 =
      copyDirAllPart (removeDirAll fs (addonPath a v)) (backupPath a v) (addonPath a v)
        ocp.done ∨
    (restore_backup (some a) v fs orm ocp).2 =
      copy_dir_all fs (backupPath a v) (addonPath a v) ∨
    (restore_backup (some a) v fs orm ocp).2 =
      copyDirAllPart fs (backupPath a v) (addonPath a v) ocp.done := by
  rw [restore_backup]
  dsimp only
  split
  · split
    · split
      · split
        · exact Or.inr (Or.inr (Or.inl rfl))
        · exact Or.inr (Or.inr (Or.inr (Or.inl rfl)))
      · exact Or.inr (Or.inl rfl)
    · split
      · exact Or.inr (Or.inr (Or.inr (Or.inr (Or.inl rfl))))
      · exact Or.inr (Or.inr (Or.inr (Or.inr (Or.inr rfl))))
  · exact Or.inl rfl

theorem switch_branch_cases (a bn v : String) (fs : FS) (ocr : CreateOutcome)
    (orm : RemoveOutcome) (ocl : CloneOutcome) :
    (switch_branch (some a) bn v fs ocr orm ocl).2 =
      createDirAllPart fs (addonsPath a v) ocr.made ∨
    (switch_branch (some a) bn v fs ocr orm ocl).2 =
      removeDirAllPart (createDirAll fs (addonsPath a v)) (addonPath a v) orm.gone ∨
    (switch_branch (some a) bn v fs ocr orm ocl).2 =
      createDirAll fs (addonsPath a v) ∨
    (switch_branch (some a) bn v fs ocr orm ocl).2 =
      applyTreeWrite (createDirAll fs (addonsPath a v)) (addonPath a v) ocl.tree ∨
    (switch_branch (some a) bn v fs ocr orm ocl).2 =
      removeDirAll (createDirAll fs (addonsPath a v)) (addonPath a v) ∨
    (switch_branch (some a) bn v fs ocr orm ocl).2 =
      applyTreeWrite (removeDirAll (createDirAll fs (addonsPath a v)) (addonPath a v))
        (addonPath a v) ocl.tree := by
  rw [switch_branch]
  dsimp only
  split
  · split
    · split
      · rcases switchClone_cases bn (addonPath a v)
          (removeDirAll (createDirAll fs (addonsPath a v)) (addonPath a v)) ocl with h | h
        · exact Or.inr (Or.inr (Or.inr (Or.inr (Or.inl h))))
        · exact Or.inr (Or.inr (Or.inr (Or.inr (Or.inr h))))
      · exact Or.inr (Or.inl rfl)
    · rcases switchClone_cases bn (addonPath a v)
        (createDirAll fs (addonsPath a v)) ocl with h | h
      · exact Or.inr (Or.inr (Or.inl h))
      · exact Or.inr (Or.inr (Or.inr (Or.inl h)))
  · exact Or.inl rfl

theorem pull_latest_cases (a v : String) (fs : FS) (opl : PullOutcome) :
    (pull_latest (some a) v fs opl).2 = fs ∨
    (pull_latest (some a) v fs opl).2 = applyTreeWrite fs (addonPath a v) opl.tree := by
  rw [pull_latest]
  dsimp only
  split
  · cases hL : opl.launch with
    | some e => exact Or.inl rfl
    | none =>
      right
      dsimp only
      split <;> rfl
  · exact Or.inl rfl

theorem save_settings_cases (a : String) (fs : FS) (s : Settings)
    (ocr : CreateOutcome) (owr : WriteOutcome) :
    (save_settings (some a) fs s ocr owr).2 =
      createDirAllPart fs (settingsDirPath a) ocr.made ∨
    (save_settings (some a) fs s ocr owr).2 = createDirAll fs (settingsDirPath a) ∨
    (save_settings (some a) fs s ocr owr).2 =
      writeFile (createDirAll fs (settingsDirPath a)) (settingsFilePath a)
        (FileData.json (settingsToJson s)) := by
  rw [save_settings]
  dsimp only
  split
  · split
    · exact Or.inr (Or.inr rfl)
    · exact Or.inr (Or.inl rfl)
  · exact Or.inl rfl

theorem open_folder_cases (a v : String) (fs : FS) (ocr : CreateOutcome)
    (osp : SpawnOutcome) :
    (open_folder (some a) v fs ocr osp).2 = createDirAll fs (addonsPath a v) ∨
    (open_folder (some a) v fs ocr osp).2 =
      createDirAllPart fs (addonsPath a v) ocr.made := by
  rw [open_folder]
  split <;> split <;> first
    | exact Or.inl rfl
    | exact Or.inr rfl

/-! ## Claims -/

/-- C6: for every version string such that the plugin directory does not
exist under the resolved addon root, `check_installation` returns a
status with `installed = false` and with both the branch and
last-updated fields unset. -/
theorem C6_check_not_installed (a v : String) (fs : FS) (g1 g2 : GitOutcome)
    (h : fs.pathExists (addonPath a v) = false) :
    check_installation (some a) v fs g1 g2 =
      Except.ok { installed := false, path := pathString (addonsPath a v),
                  branch := none, last_updated := none } := by
  simp [check_installation, h]

theorem C6_check_not_installed_witness :
    fsEmpty.pathExists (addonPath "A" "5.0") = false ∧
    check_installation (some "A") "5.0" fsEmpty (GitOutcome.launchErr "x")
        (GitOutcome.ran { success := true, stdout := "main\n", stderr := "" }) =
      Except.ok { installed := false, path := pathString (addonsPath "A" "5.0"),
                  branch := none, last_updated := none } :=
  ⟨rfl, C6_check_not_installed "A" "5.0" fsEmpty _ _ rfl⟩

/-- C5: with the application-data root resolvable, `check_installation`
always returns success, whatever the outcomes of the two auxiliary git
queries; a failed or unsuccessful query leaves the corresponding field
(branch, last-updated) unset rather than failing the operation. -/
theorem C5_check_never_fails (a v : String) (fs : FS) (g1 g2 : GitOutcome) :
    ∃ st, check_installation (some a) v fs g1 g2 = Except.ok st ∧
      (gitFailed g1 = true → st.branch = none) ∧
      (gitFailed g2 = true → st.last_updated = none) := by
  cases h1 : fs.pathExists (addonPath a v) with
  | false =>
    refine ⟨{ installed := false, path := pathString (addonsPath a v),
              branch := none, last_updated := none }, ?_, fun _ => rfl, fun _ => rfl⟩
    simp [check_installation, h1]
  | true =>
    cases h2 : fs.pathExists (addonPath a v ++ [".git"]) with
    | false =>
      refine ⟨{ installed := true, path := pathString (addonsPath a v),
                branch := none, last_updated := none }, ?_, fun _ => rfl, fun _ => rfl⟩
      simp [check_installation, h1, h2]
    | true =>
      refine ⟨{ installed := true, path := pathString (addonsPath a v),
                branch := gitField g1, last_updated := gitField g2 }, ?_,
          fun hg => gitField_of_failed hg, fun hg => gitField_of_failed hg⟩
      simp [check_installation, h1, h2]

theorem C5_check_never_fails_witness :
    ∃ st, check_installation (some "A") "5.0" fsAddonOnly
        (GitOutcome.launchErr "git missing")
        (GitOutcome.ran { success := false, stdout := "", stderr := "boom" }) =
      Except.ok st ∧
      (gitFailed (GitOutcome.launchErr "git missing") = true → st.branch = none) ∧
      (gitFailed (GitOutcome.ran { success := false, stdout := "", stderr := "boom" }) = true →
        st.last_updated = none) :=
  C5_check_never_fails "A" "5.0" fsAddonOnly _ _

/-- C8: when no settings file exists on disk and the application-data
root is resolvable, `load_settings` succeeds with the literal default
document: version `5.0`, empty custom path, auto-backup on. -/
theorem C8_load_defaults (a : String) (fs : FS) (ord : ReadOutcome)
    (h : fs.pathExists (settingsFilePath a) = false) :
    load_settings (some a) fs ord =
      Except.ok { blender_version := "5.0", custom_path := "", auto_backup := true } := by
  simp [load_settings, h]

theorem C8_load_defaults_witness :
    fsEmpty.pathExists (settingsFilePath "A") = false ∧
    load_settings (some "A") fsEmpty { ok := true, err := "" } =
      Except.ok { blender_version := "5.0", custom_path := "", auto_backup := true } :=
  ⟨rfl, C8_load_defaults "A" fsEmpty _ rfl⟩

/-- C4: `fetch_branches` fails exactly when the git invocation itself
fails, the process exits unsuccessfully, or zero branches are parsed
from successful output — in particular an empty parsed list is an error,
never an empty success — and otherwise returns the non-empty ordered
parsed branch list. -/
theorem C4_fetch_branches_spec (g : GitOutcome) :
    ((∃ e, fetch_branches g = Except.error e) ↔
      ((∃ m, g = GitOutcome.launchErr m) ∨
       (∃ r, g = GitOutcome.ran r ∧ r.success = false) ∨
       (∃ r, g = GitOutcome.ran r ∧ r.success = true ∧ parseBranches r.stdout = []))) ∧
    (∀ r, g = GitOutcome.ran r → r.success = true → parseBranches r.stdout ≠ [] →
      fetch_branches g = Except.ok (parseBranches r.stdout)) := by
  constructor
  · constructor
    · rintro ⟨e, he⟩
      cases g with
      | launchErr m => exact Or.inl ⟨m, rfl⟩
      | ran r =>
        cases hs : r.success with
        | false => exact Or.inr (Or.inl ⟨r, rfl, hs⟩)
        | true =>
          refine Or.inr (Or.inr ⟨r, rfl, hs, ?_⟩)
          by_contra hne
          rw [fetch_branches] at he
          simp only [hs, Bool.not_true, Bool.false_eq_true, if_false] at he
          rw [if_neg (by simp [List.isEmpty_iff, hne])] at he
          cases he
    · rintro (⟨m, rfl⟩ | ⟨r, rfl, hs⟩ | ⟨r, rfl, hs, hp⟩)
      · exact ⟨"Failed to run git: " ++ m, rfl⟩
      · exact ⟨"Git error: " ++ rustTrim r.stderr, by simp [fetch_branches, hs]⟩
      · exact ⟨"No branches found", by simp [fetch_branches, hs, hp]⟩
  · intro r hg hs hp
    subst hg
    rw [fetch_branches]
    simp only [hs, Bool.not_true, Bool.false_eq_true, if_false]
    rw [if_neg (by simp [List.isEmpty_iff, hp])]

theorem C4_fetch_branches_spec_witness :
    (((∃ e, fetch_branches (GitOutcome.ran { success := true, stdout := "", stderr := "" }) =
          Except.error e) ↔
      ((∃ m, GitOutcome.ran { success := true, stdout := "", stderr := "" } =
          GitOutcome.launchErr m) ∨
       (∃ r, GitOutcome.ran { success := true, stdout := "", stderr := "" } =
          GitOutcome.ran r ∧ r.success = false) ∨
       (∃ r, GitOutcome.ran { success := true, stdout := "", stderr := "" } =
          GitOutcome.ran r ∧ r.success = true ∧ parseBranches r.stdout = []))) ∧
    (∀ r, GitOutcome.ran { success := true, stdout := "", stderr := "" } = GitOutcome.ran r →
      r.success = true → parseBranches r.stdout ≠ [] →
      fetch_branches (GitOutcome.ran { success := true, stdout := "", stderr := "" }) =
        Except.ok (parseBranches r.stdout))) ∧
    fetch_branches
        (GitOutcome.ran
          { success := true, stdout := "sha\trefs/heads/main\n", stderr := "" }) =
      Except.ok [{ name := "main", last_commit := none }] :=
  ⟨C4_fetch_branches_spec _,
   (C4_fetch_branches_spec _).2 _ rfl rfl (by decide)⟩

/-- C7: `save_settings` followed immediately by `load_settings`, with no
intervening change to the settings file, returns exactly the saved
document. -/
theorem C7_settings_roundtrip (a : String) (fs : FS) (s : Settings)
    (ocr : CreateOutcome) (owr : WriteOutcome) (ord : ReadOutcome)
    (h1 : ocr.ok = true) (h2 : owr.ok = true) (h3 : ord.ok = true) :
    (save_settings (some a) fs s ocr owr).1 = Except.ok true ∧
    load_settings (some a) (save_settings (some a) fs s ocr owr).2 ord =
      Except.ok s := by
  have hw : (save_settings (some a) fs s ocr owr).2 =
      writeFile (createDirAll fs (settingsDirPath a)) (settingsFilePath a)
        (FileData.json (settingsToJson s)) := by
    simp [save_settings, h1, h2]
  refine ⟨by simp [save_settings, h1, h2], ?_⟩
  rw [hw]
  have hex : (writeFile (createDirAll fs (settingsDirPath a)) (settingsFilePath a)
      (FileData.json (settingsToJson s))).pathExists (settingsFilePath a) = true := by
    simp [FS.pathExists, writeFile]
  rw [load_settings]
  simp only [hex, h3, if_true]
  have hc : (writeFile (createDirAll fs (settingsDirPath a)) (settingsFilePath a)
      (FileData.json (settingsToJson s))).fileContent (settingsFilePath a) =
      some (FileData.json (settingsToJson s)) := by
    simp [writeFile]
  rw [hc]
  cases s
  rfl

/-- C1: `restore_backup` without a backup fails with the precondition
message instructing the user to create one first; a failure of the
deletion or of the copy surfaces as an error; and on success (over a
starting state whose addon slot, when absent, is genuinely empty) the
installed directory subtree is identical to the backup subtree,
regardless of what was installed before. -/
theorem C1_restore_backup_spec (a v : String) (fs : FS)
    (orm : RemoveOutcome) (ocp : CopyOutcome) :
    (fs.pathExists (backupPath a v) = false →
      restore_backup (some a) v fs orm ocp =
        (Except.error "No backup found. Click \x27Backup Your Serpens\x27 first!", fs)) ∧
    (fs.pathExists (backupPath a v) = true →
      fs.pathExists (addonPath a v) = true → orm.ok = false →
      (restore_backup (some a) v fs orm ocp).1 =
        Except.error ("Failed to remove current: " ++ orm.err)) ∧
    (fs.pathExists (backupPath a v) = true → orm.ok = true → ocp.ok = false →
      (restore_backup (some a) v fs orm ocp).1 =
        Except.error ("Failed to restore: " ++ ocp.err)) ∧
    (fs.pathExists (backupPath a v) = true →
      fs.isDir (backupPath a v) = true →
      (fs.pathExists (addonPath a v) = false →
        ∀ rel, rel ≠ [] → fs.isDir (addonPath a v ++ rel) = false ∧
          fs.fileContent (addonPath a v ++ rel) = none) →
      orm.ok = true → ocp.ok = true →
      (restore_backup (some a) v fs orm ocp).1 = Except.ok true ∧
      ∀ rel,
        (restore_backup (some a) v fs orm ocp).2.isDir (addonPath a v ++ rel) =
          fs.isDir (backupPath a v ++ rel) ∧
        (restore_backup (some a) v fs orm ocp).2.fileContent (addonPath a v ++ rel) =
          fs.fileContent (backupPath a v ++ rel)) := by
  refine ⟨fun h => by simp [restore_backup, h], fun h1 h2 h3 => ?_, fun h1 h2 h3 => ?_,
          fun hb hbd hclean h1 h2 => ?_⟩
  · simp [restore_backup, h1, h2, h3]
  · cases hA : fs.pathExists (addonPath a v) <;>
      simp [restore_backup, h1, h2, h3, hA]
  · have h := restore_ok_spec a v fs orm ocp hb hbd hclean h1 h2
    exact ⟨h.1, h.2.1⟩

theorem C1_restore_backup_spec_witness :
    restore_backup (some "A") "5.0" fsAddonOnly okRemove okCopy =
      (Except.error "No backup found. Click \x27Backup Your Serpens\x27 first!",
       fsAddonOnly) ∧
    ((restore_backup (some "A") "5.0" fsBoth okRemove okCopy).1 = Except.ok true ∧
     ∀ rel,
       (restore_backup (some "A") "5.0" fsBoth okRemove okCopy).2.isDir
           (addonPath "A" "5.0" ++ rel) =
         fsBoth.isDir (backupPath "A" "5.0" ++ rel) ∧
       (restore_backup (some "A") "5.0" fsBoth okRemove okCopy).2.fileContent
           (addonPath "A" "5.0" ++ rel) =
         fsBoth.fileContent (backupPath "A" "5.0" ++ rel)) :=
  ⟨(C1_restore_backup_spec "A" "5.0" fsAddonOnly okRemove okCopy).1 (by decide),
   (C1_restore_backup_spec "A" "5.0" fsBoth okRemove okCopy).2.2.2 rfl rfl
     (fun h => absurd h (by decide)) rfl rfl⟩

/-- C2: `backup_installation` fails when no installation exists; when the
backup already exists it succeeds immediately without copying and
reports the existing backup path with the state untouched; otherwise it
recursively copies the installation to the backup location and reports
the new path, and a second call on the resulting state (with any copy
oracle) short-circuits with success and leaves the state untouched, so
two successive calls perform exactly one copy. -/
theorem C2_backup_idempotent (a v : String) (fs : FS) (ocp ocp2 : CopyOutcome) :
    (fs.pathExists (addonPath a v) = false →
      backup_installation (some a) v fs ocp =
        (Except.error "No installation found to backup", fs)) ∧
    (fs.pathExists (addonPath a v) = true →
      fs.pathExists (backupPath a v) = true →
      backup_installation (some a) v fs ocp =
        (Except.ok ("Backup already exists: " ++ pathString (backupPath a v)), fs)) ∧
    (fs.pathExists (addonPath a v) = true →
      fs.pathExists (backupPath a v) = false →
      ocp.ok = true →
      backup_installation (some a) v fs ocp =
        (Except.ok (pathString (backupPath a v)),
         copy_dir_all fs (addonPath a v) (backupPath a v)) ∧
      backup_installation (some a) v
          (copy_dir_all fs (addonPath a v) (backupPath a v)) ocp2 =
        (Except.ok ("Backup already exists: " ++ pathString (backupPath a v)),
         copy_dir_all fs (addonPath a v) (backupPath a v))) := by
  refine ⟨fun h => by simp [backup_installation, h],
          fun h1 h2 => by simp [backup_installation, h1, h2],
          fun h1 h2 hok => ?_⟩
  have hdj := addon_dj a v (isPre_refl (addonPath a v))
  have hout := copy_dir_all_out fs (addonPath a v) hdj.1 hdj.2.1
  have haddon : (copy_dir_all fs (addonPath a v) (backupPath a v)).pathExists
      (addonPath a v) = true := by
    rw [pathExists_congr hout.1 hout.2]
    exact h1
  have hback : (copy_dir_all fs (addonPath a v) (backupPath a v)).pathExists
      (backupPath a v) = true := by
    simp [FS.pathExists, copy_dir_all_dst_dir]
  constructor
  · simp [backup_installation, h1, h2, hok]
  · simp [backup_installation, haddon, hback]

theorem C2_backup_idempotent_witness :
    (backup_installation (some "A") "5.0" fsAddonOnly okCopy =
      (Except.ok (pathString (backupPath "A" "5.0")),
       copy_dir_all fsAddonOnly (addonPath "A" "5.0") (backupPath "A" "5.0")) ∧
     backup_installation (some "A") "5.0"
        (copy_dir_all fsAddonOnly (addonPath "A" "5.0") (backupPath "A" "5.0")) okCopy =
      (Except.ok ("Backup already exists: " ++ pathString (backupPath "A" "5.0")),
       copy_dir_all fsAddonOnly (addonPath "A" "5.0") (backupPath "A" "5.0"))) ∧
    backup_installation (some "A") "5.0" fsEmpty okCopy =
      (Except.error "No installation found to backup", fsEmpty) :=
  ⟨(C2_backup_idempotent "A" "5.0" fsAddonOnly okCopy okCopy).2.2 rfl rfl rfl,
   (C2_backup_idempotent "A" "5.0" fsEmpty okCopy okCopy).1 rfl⟩

/-- C9: no handler ever writes into an existing backup subtree: whatever
the oracles report (success or any failure), `restore_backup`,
`switch_branch`, `pull_latest`, `save_settings` and `open_folder` leave
every path below the backup directory exactly as it was, and
`backup_installation` invoked while the backup exists returns with the
whole filesystem state untouched, so the canonical backup is never
overwritten or modified. -/
theorem C9_backup_never_overwritten (a v bn : String) (fs : FS) (s : Settings)
    (orm ormS : RemoveOutcome) (ocp ocpB : CopyOutcome)
    (ocr ocrS ocrO : CreateOutcome) (ocl : CloneOutcome) (opl : PullOutcome)
    (owr : WriteOutcome) (osp : SpawnOutcome) :
    agreesOnBackup a v fs (restore_backup (some a) v fs orm ocp).2 ∧
    agreesOnBackup a v fs (switch_branch (some a) bn v fs ocr ormS ocl).2 ∧
    agreesOnBackup a v fs (pull_latest (some a) v fs opl).2 ∧
    agreesOnBackup a v fs (save_settings (some a) fs s ocrS owr).2 ∧
    agreesOnBackup a v fs (open_folder (some a) v fs ocrO osp).2 ∧
    (fs.pathExists (backupPath a v) = true →
      (backup_installation (some a) v fs ocpB).2 = fs) := by
  refine ⟨?_, ?_, ?_, ?_, ?_, ?_⟩
  · rcases restore_backup_cases a v fs orm ocp with h | h | h | h | h | h <;> rw [h]
    · exact agrees_refl a v fs
    · exact agrees_removePart (agrees_refl a v fs)
    · exact agrees_copy (agrees_remove (agrees_refl a v fs))
    · exact agrees_copyPart (agrees_remove (agrees_refl a v fs))
    · exact agrees_copy (agrees_refl a v fs)
    · exact agrees_copyPart (agrees_refl a v fs)
  · rcases switch_branch_cases a bn v fs ocr ormS ocl with h | h | h | h | h | h <;> rw [h]
    · exact agrees_createPart (agrees_refl a v fs)
    · exact agrees_removePart (agrees_create (agrees_refl a v fs))
    · exact agrees_create (agrees_refl a v fs)
    · exact agrees_tree (agrees_create (agrees_refl a v fs))
    · exact agrees_remove (agrees_create (agrees_refl a v fs))
    · exact agrees_tree (agrees_remove (agrees_create (agrees_refl a v fs)))
  · rcases pull_latest_cases a v fs opl with h | h <;> rw [h]
    · exact agrees_refl a v fs
    · exact agrees_tree (agrees_refl a v fs)
  · rcases save_settings_cases a fs s ocrS owr with h | h | h <;> rw [h]
    · exact agrees_createSPart (agrees_refl a v fs)
    · exact agrees_createS (agrees_refl a v fs)
    · exact agrees_writeS (agrees_createS (agrees_refl a v fs))
  · rcases open_folder_cases a v fs ocrO osp with h | h <;> rw [h]
    · exact agrees_create (agrees_refl a v fs)
    · exact agrees_createPart (agrees_refl a v fs)
  · intro hb
    cases h1 : fs.pathExists (addonPath a v) <;>
      simp [backup_installation, h1, hb]

theorem C9_backup_never_overwritten_witness :
    agreesOnBackup "A" "5.0" fsBoth
      (restore_backup (some "A") "5.0" fsBoth okRemove okCopy).2 ∧
    agreesOnBackup "A" "5.0" fsBoth
      (switch_branch (some "A") "b" "5.0" fsBoth okCreate okRemove cloneNoInit).2 ∧
    agreesOnBackup "A" "5.0" fsBoth (pull_latest (some "A") "5.0" fsBoth okPull).2 ∧
    agreesOnBackup "A" "5.0" fsBoth
      (save_settings (some "A") fsBoth
        { blender_version := "5.0", custom_path := "", auto_backup := true }
        okCreate okWrite).2 ∧
    agreesOnBackup "A" "5.0" fsBoth
      (open_folder (some "A") "5.0" fsBoth okCreate okSpawn).2 ∧
    (backup_installation (some "A") "5.0" fsBoth okCopy).2 = fsBoth := by
  have h := C9_backup_never_overwritten "A" "5.0" "b" fsBoth
    { blender_version := "5.0", custom_path := "", auto_backup := true }
    okRemove okRemove okCopy okCopy okCreate okCreate okCreate cloneNoInit okPull
    okWrite okSpawn
  exact ⟨h.1, h.2.1, h.2.2.1, h.2.2.2.1, h.2.2.2.2.1, h.2.2.2.2.2 (by decide)⟩

/-- C10: a successful `restore_backup` (over a well-formed state: the
addons chain already made of directories, and an absent addon slot
genuinely empty) rewrites only the installed plugin directory — every
path outside the addon subtree, in particular the whole backup subtree,
is untouched — so the backup still exists afterwards, and invoking
`restore_backup` again succeeds and produces pointwise exactly the same
filesystem state. -/
theorem C10_restore_frame (a v : String) (fs : FS)
    (orm orm2 : RemoveOutcome) (ocp ocp2 : CopyOutcome)
    (hb : fs.pathExists (backupPath a v) = true)
    (hbd : fs.isDir (backupPath a v) = true)
    (hanc : ∀ p, p.isPrefixOf (addonsPath a v) = true → fs.isDir p = true)
    (hclean : fs.pathExists (addonPath a v) = false →
      ∀ rel, rel ≠ [] → fs.isDir (addonPath a v ++ rel) = false ∧
        fs.fileContent (addonPath a v ++ rel) = none)
    (h1 : orm.ok = true) (h2 : ocp.ok = true)
    (h3 : orm2.ok = true) (h4 : ocp2.ok = true) :
    (restore_backup (some a) v fs orm ocp).1 = Except.ok true ∧
    (∀ p, (addonPath a v).isPrefixOf p = false →
      (restore_backup (some a) v fs orm ocp).2.isDir p = fs.isDir p ∧
      (restore_backup (some a) v fs orm ocp).2.fileContent p = fs.fileContent p) ∧
    (restore_backup (some a) v fs orm ocp).2.pathExists (backupPath a v) = true ∧
    (restore_backup (some a) v (restore_backup (some a) v fs orm ocp).2
        orm2 ocp2).1 = Except.ok true ∧
    (∀ p,
      (restore_backup (some a) v (restore_backup (some a) v fs orm ocp).2
          orm2 ocp2).2.isDir p =
        (restore_backup (some a) v fs orm ocp).2.isDir p ∧
      (restore_backup (some a) v (restore_backup (some a) v fs orm ocp).2
          orm2 ocp2).2.fileContent p =
        (restore_backup (some a) v fs orm ocp).2.fileContent p) := by
  obtain ⟨hr1, hcont, hfile_fr, hdir_fr, hanc_dir⟩ :=
    restore_ok_spec a v fs orm ocp hb hbd hclean h1 h2
  have hframe : ∀ p, (addonPath a v).isPrefixOf p = false →
      (restore_backup (some a) v fs orm ocp).2.isDir p = fs.isDir p ∧
      (restore_backup (some a) v fs orm ocp).2.fileContent p = fs.fileContent p := by
    intro p hp
    refine ⟨?_, hfile_fr p hp⟩
    cases hq : p.isPrefixOf (addonsPath a v) with
    | false => exact hdir_fr p hp hq
    | true => rw [hanc_dir p hq, hanc p hq]
  have hdjB := backup_dj a v (isPre_refl (backupPath a v))
  have hb2 : (restore_backup (some a) v fs orm ocp).2.pathExists
      (backupPath a v) = true := by
    rw [pathExists_congr (hframe _ hdjB.1).1 (hframe _ hdjB.1).2]
    exact hb
  have hbd2 : (restore_backup (some a) v fs orm ocp).2.isDir (backupPath a v) = true := by
    rw [(hframe _ hdjB.1).1]
    exact hbd
  have haddonDir : (restore_backup (some a) v fs orm ocp).2.isDir
      (addonPath a v) = true := by
    have h := (hcont []).1
    simp only [List.append_nil] at h
    rw [h]
    exact hbd
  have hclean2 : (restore_backup (some a) v fs orm ocp).2.pathExists
      (addonPath a v) = false →
      ∀ rel, rel ≠ [] →
        (restore_backup (some a) v fs orm ocp).2.isDir (addonPath a v ++ rel) = false ∧
        (restore_backup (some a) v fs orm ocp).2.fileContent (addonPath a v ++ rel) =
          none := by
    intro h
    exfalso
    simp [FS.pathExists, haddonDir] at h
  obtain ⟨hr2, hcont2, hfile_fr2, hdir_fr2, hanc_dir2⟩ :=
    restore_ok_spec a v (restore_backup (some a) v fs orm ocp).2 orm2 ocp2
      hb2 hbd2 hclean2 h3 h4
  refine ⟨hr1, hframe, hb2, hr2, ?_⟩
  intro p
  cases hap : (addonPath a v).isPrefixOf p with
  | true =>
    obtain ⟨rel, rfl⟩ := isPre_dest hap
    have hX := (hframe (backupPath a v ++ rel)
      (backup_dj a v (isPre_append_self _ rel)).1)
    constructor
    · exact ((hcont2 rel).1.trans hX.1).trans (hcont rel).1.symm
    · exact ((hcont2 rel).2.trans hX.2).trans (hcont rel).2.symm
  | false =>
    refine ⟨?_, hfile_fr2 p hap⟩
    cases hq : p.isPrefixOf (addonsPath a v) with
    | false => exact hdir_fr2 p hap hq
    | true => rw [hanc_dir2 p hq, hanc_dir p hq]

theorem C10_restore_frame_witness :
    (restore_backup (some "A") "5.0" fsBoth okRemove okCopy).1 = Except.ok true ∧
    (∀ p, (addonPath "A" "5.0").isPrefixOf p = false →
      (restore_backup (some "A") "5.0" fsBoth okRemove okCopy).2.isDir p =
        fsBoth.isDir p ∧
      (restore_backup (some "A") "5.0" fsBoth okRemove okCopy).2.fileContent p =
        fsBoth.fileContent p) ∧
    (restore_backup (some "A") "5.0" fsBoth okRemove okCopy).2.pathExists
      (backupPath "A" "5.0") = true ∧
    (restore_backup (some "A") "5.0"
        (restore_backup (some "A") "5.0" fsBoth okRemove okCopy).2
        okRemove okCopy).1 = Except.ok true ∧
    (∀ p,
      (restore_backup (some "A") "5.0"
          (restore_backup (some "A") "5.0" fsBoth okRemove okCopy).2
          okRemove okCopy).2.isDir p =
        (restore_backup (some "A") "5.0" fsBoth okRemove okCopy).2.isDir p ∧
      (restore_backup (some "A") "5.0"
          (restore_backup (some "A") "5.0" fsBoth okRemove okCopy).2
          okRemove okCopy).2.fileContent p =
        (restore_backup (some "A") "5.0" fsBoth okRemove okCopy).2.fileContent p) :=
  C10_restore_frame "A" "5.0" fsBoth okRemove okRemove okCopy okCopy rfl rfl
    (fun p hp => by
      have h2 : p.isPrefixOf (backupPath "A" "5.0") = true :=
        isPre_trans hp (by decide)
      simp [fsBoth, h2])
    (fun h => absurd h (by decide)) rfl rfl rfl rfl

/-- C3: when the clone step of `switch_branch` reports success but the
marker file `__init__.py` does not exist inside the cloned directory,
the handler returns an error embedding the captured stdout and stderr,
and the final filesystem state is exactly the post-clone state — the
cloned directory is left on disk (it is a directory whenever the clone
wrote its root), with no cleanup performed. -/
theorem C3_switch_marker (a bn v : String) (fs : FS) (ocr : CreateOutcome)
    (orm : RemoveOutcome) (ocl : CloneOutcome)
    (h1 : ocr.ok = true) (h2 : orm.ok = true)
    (hl : ocl.launch = none) (hs : ocl.success = true)
    (hmark : (switchCloneState a v fs ocl.tree).pathExists
      (addonPath a v ++ ["__init__.py"]) = false) :
    switch_branch (some a) bn v fs ocr orm ocl =
      (Except.error
        ("Clone completed but __init__.py not found. The branch \x27" ++ bn ++
          "\x27 may not contain the addon.\nPath: " ++ pathString (addonPath a v) ++
          "\nGit output:\n" ++ ocl.stdout ++ ocl.stderr),
       switchCloneState a v fs ocl.tree) ∧
    (ocl.tree.wDir [] = true →
      (switchCloneState a v fs ocl.tree).isDir (addonPath a v) = true) := by
  constructor
  · rw [switch_branch]
    unfold switchCloneState at hmark ⊢
    cases hA : (createDirAll fs (addonsPath a v)).pathExists (addonPath a v) with
    | true =>
      simp [hA] at hmark
      simp only [hA, h1, h2, if_true]
      rw [switchClone, hl]
      simp [hs, hmark]
    | false =>
      simp [hA] at hmark
      simp only [hA, h1, Bool.false_eq_true, if_false]
      rw [switchClone, hl]
      simp [hs, hmark]
  · intro hw
    have hrel : relFrom (addonPath a v) (addonPath a v) = some [] := by
      have := relFrom_append (addonPath a v) []
      simpa using this
    unfold switchCloneState
    simp [applyTreeWrite, hrel, hw]

theorem C3_switch_marker_witness :
    switch_branch (some "A") "nope" "5.0" fsEmpty okCreate okRemove cloneNoInit =
      (Except.error
        ("Clone completed but __init__.py not found. The branch \x27" ++ "nope" ++
          "\x27 may not contain the addon.\nPath: " ++ pathString (addonPath "A" "5.0") ++
          "\nGit output:\n" ++ cloneNoInit.stdout ++ cloneNoInit.stderr),
       switchCloneState "A" "5.0" fsEmpty cloneNoInit.tree) ∧
    (cloneNoInit.tree.wDir [] = true →
      (switchCloneState "A" "5.0" fsEmpty cloneNoInit.tree).isDir
        (addonPath "A" "5.0") = true) :=
  C3_switch_marker "A" "nope" "5.0" fsEmpty okCreate okRemove cloneNoInit
    rfl rfl rfl rfl (by decide)

theorem C7_settings_roundtrip_witness :
    (save_settings (some "A") fsEmpty
        { blender_version := "4.2", custom_path := "C", auto_backup := false }
        { ok := true, err := "", made := fun _ => false }
        { ok := true, err := "" }).1 = Except.ok true ∧
    load_settings (some "A")
        (save_settings (some "A") fsEmpty
          { blender_version := "4.2", custom_path := "C", auto_backup := false }
          { ok := true, err := "", made := fun _ => false }
          { ok := true, err := "" }).2
        { ok := true, err := "" } =
      Except.ok { blender_version := "4.2", custom_path := "C", auto_backup := false } :=
  C7_settings_roundtrip "A" fsEmpty _ _ _ _ rfl rfl rfl

end Serpens
